import Mathlib

/-!
Verification of the altair Vega-lite DSL core (`altair/api.py`).

The development shallowly embeds the object model of `api.py`: the
traitlets-backed classes become Lean structures, the reactive
`_*_changed` handlers become explicit state-transition functions, and
Python exceptions become `Except PyError`.  `utils.parse_shorthand` and
`utils.infer_vegalite_type` are not part of the sources at hand; they
are modelled from the specification (see their doc comments).
-/

set_option autoImplicit false

namespace Altair

/-- The four Vega-lite semantic type codes, `T.Enum(['N','O','Q','T'])`. -/
inductive VLType where
  | N | O | Q | T
deriving Repr, DecidableEq

/-- The string stored in the Python trait for a type code. -/
def VLType.code : VLType → String
  | .N => "N"
  | .O => "O"
  | .Q => "Q"
  | .T => "T"

/-- `T.Enum(['year','month','day','date','hours','minutes','seconds'])`. -/
inductive TimeUnit where
  | year | month | day | date | hours | minutes | seconds
deriving Repr, DecidableEq

def TimeUnit.code : TimeUnit → String
  | .year => "year"
  | .month => "month"
  | .day => "day"
  | .date => "date"
  | .hours => "hours"
  | .minutes => "minutes"
  | .seconds => "seconds"

/-- `T.Enum(['avg','sum','median','min','max','count'])` (Shelf.aggregate). -/
inductive Aggregate where
  | avg | sum | median | min | max | count
deriving Repr, DecidableEq

def Aggregate.code : Aggregate → String
  | .avg => "avg"
  | .sum => "sum"
  | .median => "median"
  | .min => "min"
  | .max => "max"
  | .count => "count"

/-- Python exceptions that the embedded code can raise. -/
inductive PyError where
  | typeError
  | attributeError
  | valueError
  | invalidShorthand
deriving Repr, DecidableEq

/-- Dtype classification of a dataset column.  Modelled from the spec:
the minimal tabular interface gives each column "a dtype classification
(numeric, temporal, categorical-ordered, categorical-unordered/text)". -/
inductive Dtype where
  | numeric | temporal | catOrdered | catUnordered
deriving Repr, DecidableEq

/-- A named dataset column with its dtype classification. -/
structure Column where
  name : String
  dtype : Dtype
deriving Repr, DecidableEq

/-- Modelled from the spec: the Dataset collaborator is an "ordered set
of named columns".  `pd.DataFrame` membership (`name in df`) is column
membership, and `df[name]` is column access. -/
def Dataset := List Column
deriving Repr, DecidableEq

/-- `self.name in data`: column-name membership of a DataFrame. -/
def Dataset.hasCol (d : Dataset) (n : String) : Bool :=
  (List.filter (fun c => c.name = n) d).length ≠ 0

/-- `data[name]`: access the (first) column called `n`. -/
def Dataset.findCol (d : Dataset) (n : String) : Option Column :=
  List.find? (fun c => c.name = n) d

/-- Modelled from the spec: `utils.infer_vegalite_type` is not under the
sources at hand.  Policy from the spec, "deterministic, dtype-driven":
numeric dtype maps to Q, temporal to T, ordered categorical to O,
unordered categorical/text to N. -/
def infer_vegalite_type (c : Column) : VLType :=
  match c.dtype with
  | .numeric => .Q
  | .temporal => .T
  | .catOrdered => .O
  | .catUnordered => .N

/-- Result of parsing a shorthand string: "a mapping of recognized keys
to values, covering a subset of name, type, aggregate, timeUnit"; a key
absent from the mapping is `none`. -/
structure ShorthandResult where
  name : Option String := none
  type : Option VLType := none
  aggregate : Option Aggregate := none
  timeUnit : Option TimeUnit := none
deriving Repr, DecidableEq

def aggOfString (s : String) : Option Aggregate :=
  if s = "avg" then some .avg
  else if s = "sum" then some .sum
  else if s = "median" then some .median
  else if s = "min" then some .min
  else if s = "max" then some .max
  else if s = "count" then some .count
  else none

def vlTypeOfString (s : String) : Option VLType :=
  if s = "N" then some .N
  else if s = "O" then some .O
  else if s = "Q" then some .Q
  else if s = "T" then some .T
  else none

def timeUnitOfString (s : String) : Option TimeUnit :=
  if s = "year" then some .year
  else if s = "month" then some .month
  else if s = "day" then some .day
  else if s = "date" then some .date
  else if s = "hours" then some .hours
  else if s = "minutes" then some .minutes
  else if s = "seconds" then some .seconds
  else none

/-- Split a character list at every occurrence of the separator `c`
(structurally recursive analogue of `str.split(c)`). -/
def splitOnChar (c : Char) : List Char → List (List Char)
  | [] => [[]]
  | a :: rest =>
    let r := splitOnChar c rest
    if a = c then [] :: r
    else
      match r with
      | h :: t => (a :: h) :: t
      | [] => [[a]]

/-- `str.split(c)` on a Lean string. -/
def splitStr (c : Char) (s : String) : List String :=
  (splitOnChar c s.data).map fun l => { data := l }

/-- Apply a `:CODE` suffix to a partial parse: a type code sets `type`,
a recognized time-unit keyword sets `timeUnit`, anything else is a
malformed code and surfaces as `InvalidShorthand`. -/
def applyCode (r : ShorthandResult) (c : String) : Except PyError ShorthandResult :=
  match vlTypeOfString c with
  | some t => .ok { r with type := some t }
  | none =>
    match timeUnitOfString c with
    | some tu => .ok { r with timeUnit := some tu }
    | none => .error .invalidShorthand

/-- A bare field reference: `columnName`, optionally followed by
`:TYPECODE` or by a time-unit keyword. -/
def parseFieldRef (s : String) : Except PyError ShorthandResult :=
  match splitStr ':' s with
  | [n] => .ok { name := some n }
  | [n, c] => applyCode { name := some n } c
  | _ => .error .invalidShorthand

/-- Modelled from the spec: `utils.parse_shorthand` is not under the
sources at hand.  Grammar from the spec: an optional aggregate wrapper
`FUNC(inner)` with FUNC one of avg/sum/median/min/max/count, `inner`
either empty (aggregate over all rows) or a bare field reference; the
field reference is a column name optionally followed by `:TYPECODE`
(with the spec round-trip example `avg(price):Q` placing the code after
the wrapper) or by a time-unit keyword.  An unknown aggregate function
or malformed code is an `InvalidShorthand` condition, never a silent
default. -/
def parse_shorthand (s : String) : Except PyError ShorthandResult :=
  if s.data.contains '(' then
    match splitStr '(' s with
    | [func, rest] =>
      match splitStr ')' rest with
      | [inner, tail] =>
        match aggOfString func with
        | none => .error .invalidShorthand
        | some a => do
          let base ← if inner = "" then pure {} else parseFieldRef inner
          let full ←
            match tail.data with
            | [] => pure base
            | ':' :: code => applyCode base { data := code }
            | _ => Except.error PyError.invalidShorthand
          .ok { full with aggregate := some a }
      | _ => .error .invalidShorthand
    | _ => .error .invalidShorthand
  else parseFieldRef s

/-- A Python attribute value as seen by `BaseObject.__contains__` and
`BaseObject.to_dict`.  `obj` is a `BaseObject` instance carried together
with the mapping its own `to_dict()` would produce; `dict` is a plain
(or `Config`) dictionary. -/
inductive PyVal where
  | none
  | bool (b : Bool)
  | int (n : Int)
  | str (s : String)
  | list (xs : List PyVal)
  | dict (entries : List (String × PyVal))
  | obj (entries : List (String × PyVal))
  | dataFrame (d : Dataset)

/-- Python truthiness of the values above.  A `BaseObject` instance
defines neither `__bool__` nor `__len__`, so it is always truthy.  (A
real DataFrame raises on `bool()`; `__contains__` returns before ever
asking, so the branch is unreachable there.) -/
def py_truthy : PyVal → Bool
  | .none => false
  | .bool b => b
  | .int n => n ≠ 0
  | .str s => s ≠ ""
  | .list xs => !xs.isEmpty
  | .dict entries => !entries.isEmpty
  | .obj _ => true
  | .dataFrame _ => true

/-- `isinstance(value, bool)`. -/
def py_isBool : PyVal → Bool
  | .bool _ => true
  | _ => false

/-- `value is None`. -/
def py_isNone : PyVal → Bool
  | .none => true
  | _ => false

/-- `BaseObject.__contains__`: a pandas DataFrame is always present;
otherwise the value must be non-None and `not (not isinstance(value,
bool) and not value)`, i.e. a bool or truthy. -/
def base_contains (v : PyVal) : Bool :=
  match v with
  | .dataFrame _ => true
  | v => !py_isNone v && (py_isBool v || py_truthy v)

/-- `BaseObject.to_dict`'s per-value step: a nested `BaseObject` is
replaced by its own `to_dict()` mapping, everything else is kept raw. -/
def PyVal.serializeBase : PyVal → PyVal
  | .obj entries => .dict entries
  | v => v

/-- `BaseObject.to_dict`: iterate the entity's traits in declaration
order, keep `k` iff `k in self and k not in self.skip`, serializing
nested `BaseObject`s recursively. -/
def dictOf (names skip : List String) (get : String → PyVal) : List (String × PyVal) :=
  names.filterMap fun k =>
    if base_contains (get k) && !(skip.contains k) then some (k, (get k).serializeBase)
    else none

/-- `Bin`: `maxbins = T.Int(0, config=True)`. -/
structure Bin where
  maxbins : Int := 0
deriving Repr, DecidableEq

def Bin.traitNames : List String := ["maxbins", "config"]

def Bin.getattr (b : Bin) : String → PyVal
  | "maxbins" => .int b.maxbins
  | "config" => .dict []
  | _ => .none

/-- `Bin.to_dict` (inherited from `BaseObject`; `skip` is empty). -/
def Bin.to_dict (b : Bin) : List (String × PyVal) :=
  dictOf Bin.traitNames [] b.getattr

/-- The value of the `bin` trait:
`T.Union([T.Bool(), T.Instance(Bin)], default_value=False)`. -/
inductive BinVal where
  | b (x : Bool)
  | spec (bin : Bin)
deriving Repr, DecidableEq

/-- `SortItems` (name, aggregate, reverse); never populated by any code
path exercised here, carried for completeness of the `sort` trait. -/
structure SortItems where
  name : Option String := none
  reverse : Bool := false
deriving Repr, DecidableEq

/-- `Shelf`: the base field descriptor.  `config=True` traits are
`name`, `type` and `aggregate`. -/
structure Shelf where
  shorthand : String := ""
  name : String := ""
  type : Option VLType := none
  timeUnit : Option TimeUnit := none
  bin : BinVal := .b false
  sort : Option (List SortItems) := none
  aggregate : Option Aggregate := none
deriving Repr, DecidableEq

/-- `Shelf.skip = ['shorthand', 'config']`. -/
def Shelf.skip : List String := ["shorthand", "config"]

/-- The traits `self.traits()` iterates for a plain `Shelf` (the
declared traits plus `Configurable`'s `config`). -/
def Shelf.traitNames : List String :=
  ["shorthand", "name", "type", "timeUnit", "bin", "sort", "aggregate", "config"]

def SortItems.py (s : SortItems) : PyVal :=
  .obj [("name", match s.name with | some n => .str n | none => .none),
        ("reverse", .bool s.reverse)]

/-- `getattr(self, k)` for a plain `Shelf`.  The entities built by the
claims carry no explicit `Config`, so the `config` trait holds the empty
(falsy) configuration; it is unconditionally in the skip list anyway. -/
def Shelf.getattr (s : Shelf) : String → PyVal
  | "shorthand" => .str s.shorthand
  | "name" => .str s.name
  | "type" => match s.type with | some t => .str t.code | none => .none
  | "timeUnit" => match s.timeUnit with | some t => .str t.code | none => .none
  | "bin" => match s.bin with | .b x => .bool x | .spec b => .obj b.to_dict
  | "sort" => match s.sort with | some l => .list (l.map SortItems.py) | none => .none
  | "aggregate" => match s.aggregate with | some a => .str a.code | none => .none
  | "config" => .dict []
  | _ => .none

/-- `Shelf.to_dict` (inherited from `BaseObject`). -/
def Shelf.to_dict (s : Shelf) : List (String × PyVal) :=
  dictOf Shelf.traitNames Shelf.skip s.getattr

/-- `Shelf._shorthand_changed` applied at construction: every key the
parse returns is written over the corresponding attribute; attributes
the shorthand does not encode are left alone. -/
def Shelf.applyParsed (s : Shelf) (r : ShorthandResult) : Shelf :=
  let s := match r.name with | some n => { s with name := n } | none => s
  let s := match r.type with | some t => { s with type := some t } | none => s
  let s := match r.aggregate with | some a => { s with aggregate := some a } | none => s
  match r.timeUnit with | some tu => { s with timeUnit := some tu } | none => s

/-- `Shelf.__init__` for a plain `Shelf(shorthand)`: the shorthand kwarg
is stored, and—when it differs from the default `''` so that the change
handler fires—parsed and applied. -/
def Shelf.from_shorthand (sh : String) : Except PyError Shelf :=
  let s : Shelf := { shorthand := sh }
  if sh = "" then .ok s
  else (parse_shorthand sh).map s.applyParsed

/-- `Shelf._infer_type(data)` for a DataFrame argument:
`if self.type is None and self.name in data: self.type =
infer_vegalite_type(data[self.name])`. -/
def Shelf.inferWith (s : Shelf) (d : Dataset) : Shelf :=
  if s.type = none then
    match d.findCol s.name with
    | some c => { s with type := some (infer_vegalite_type c) }
    | none => s
  else s

/-- `Shelf._infer_type(data)` with the argument possibly Python `None`
(as happens via `Encoding._shape_changed`): when `self.type is None`
short-circuits to the membership test, `self.name in None` raises
`TypeError`. -/
def Shelf._infer_type (s : Shelf) (data : Option Dataset) : Except PyError Shelf :=
  if s.type = none then
    match data with
    | none => .error .typeError
    | some d => .ok (s.inferWith d)
  else .ok s

/-- Which channel class a constructed FieldSpec belongs to (`X`, `Y`,
`Row`, `Col`, `Size`, `Color`, `Shape`). -/
inductive ChannelKind where
  | X | Y | Row | Col | Size | Color | Shape
deriving Repr, DecidableEq

/-- `Band`: `size = T.Int(600)`. -/
structure Band where
  size : Int := 600
deriving Repr, DecidableEq

/-- A constructed channel FieldSpec: the inherited `Shelf` traits plus
the channel-specific traits the claims observe.  `band` exists on the
positional classes `X`/`Y` (`DataCoordinate`); `value`/`legend`/`filled`
on `Shape` (`value` also on `Size`/`Color`, with their own defaults,
represented uniformly as a `PyVal`).  For kinds that lack a trait the
field keeps its default and is never read or serialized.  `Row`/`Col`'s
`padding`/`axis`/`height` and `X`/`Y`'s `scale`/`axis`, and the
`legend`/`scale` instances (always `None` here), are not observed by any
claim and are omitted from the state. -/
structure Channel extends Shelf where
  kind : ChannelKind
  band : Option Band := Option.none
  value : PyVal := PyVal.none
  filled : Bool := false

/-- Per-class default of the `value` trait: `Size.value = T.CInt(30)`,
`Color.value = T.Unicode('#4682b4')`, `Shape.value = T.Enum([...],
default_value='circle')`; the other classes have no `value` trait. -/
def ChannelKind.defaultValue : ChannelKind → PyVal
  | .Size => .int 30
  | .Color => .str "#4682b4"
  | .Shape => .str "circle"
  | _ => .none

/-- The freshly instantiated channel object of class `k`, before any
config or shorthand is applied. -/
def Channel.defaults (k : ChannelKind) : Channel :=
  { kind := k, value := k.defaultValue }

/-- One class section of a traitlets `Config` (e.g. `config.Y`).  The
`config=True` traits of `Shelf` are `name`, `type` and `aggregate`;
a key absent from the section is `none` and leaves the trait alone. -/
structure SectionCfg where
  name : Option String := Option.none
  type : Option VLType := Option.none
  aggregate : Option Aggregate := Option.none
deriving Repr, DecidableEq

/-- Configurable construction: apply the class section of the config to
the configurable traits before the remaining kwargs are set. -/
def SectionCfg.apply (cfg : SectionCfg) (c : Channel) : Channel :=
  let c := match cfg.name with | some n => { c with name := n } | Option.none => c
  let c := match cfg.type with | some t => { c with type := some t } | Option.none => c
  match cfg.aggregate with | some a => { c with aggregate := some a } | Option.none => c

/-- `Config()` as built by `Viz.hist`: sections keyed by class name.
Only the `X` and `Y` sections can ever be non-empty here (`hist` sets
`config.Y`, and only `X(...)`/`Y(...)` are passed a config at all). -/
structure Config where
  X : SectionCfg := {}
  Y : SectionCfg := {}
deriving Repr, DecidableEq

/-- `Shelf._shorthand_changed` lifted to a channel object. -/
def Channel.applyParsed (c : Channel) (r : ShorthandResult) : Channel :=
  { c with toShelf := c.toShelf.applyParsed r }

/-- Channel construction `Cls(shorthand, config=...)`: `Shelf.__init__`
stores the shorthand kwarg; `Configurable.__init__` first applies the
class section of the config, then the shorthand trait is written, firing
`_shorthand_changed` (which parses and applies) only when the new value
differs from the default `''`. -/
def Channel.new (k : ChannelKind) (sh : String) (cfg : SectionCfg) :
    Except PyError Channel :=
  let c := cfg.apply { Channel.defaults k with shorthand := sh }
  if sh = "" then .ok c
  else (parse_shorthand sh).map c.applyParsed

/-- `Shelf.inferWith` lifted to a channel object. -/
def Channel.inferWith (c : Channel) (d : Dataset) : Channel :=
  { c with toShelf := c.toShelf.inferWith d }

/-- `Shelf._infer_type` lifted to a channel object. -/
def Channel._infer_type (c : Channel) (data : Option Dataset) :
    Except PyError Channel :=
  (c.toShelf._infer_type data).map fun s => { c with toShelf := s }
/-- The seven channel slot names of an `Encoding`. -/
inductive ChannelName where
  | x | y | row | col | size | color | shape
deriving Repr, DecidableEq, BEq

/-- The channel class constructed for each slot. -/
def ChannelName.kindOf : ChannelName → ChannelKind
  | .x => .X
  | .y => .Y
  | .row => .Row
  | .col => .Col
  | .size => .Size
  | .color => .Color
  | .shape => .Shape

/-- `Encoding`: the seven union-typed channel slots (held here in their
canonical, already-constructed form: the handlers below normalize any
string immediately), the stored traitlets config, and the back-reference
to the owning chart.  `parent` is a live reference in Python and is used
only to reach the parent's `data`; it is modelled as a snapshot
`Option (Option Dataset)`: `none` when no parent is attached,
`some d` when a parent with dataset `d : Option Dataset` is.  Every
`Viz` operation below refreshes the snapshot whenever the chart's data
changes, keeping it equal to what the live reference would read. -/
structure Encoding where
  x : Option Channel := Option.none
  y : Option Channel := Option.none
  row : Option Channel := Option.none
  col : Option Channel := Option.none
  size : Option Channel := Option.none
  color : Option Channel := Option.none
  shape : Option Channel := Option.none
  parent : Option (Option Dataset) := Option.none
  config : Config := {}

/-- `Encoding.skip = ['parent', 'config']` (unused here: no claim
serializes an `Encoding`, but recorded for fidelity). -/
def Encoding.skip : List String := ["parent", "config"]

/-- Read a channel slot. -/
def Encoding.getSlot (e : Encoding) : ChannelName → Option Channel
  | .x => e.x
  | .y => e.y
  | .row => e.row
  | .col => e.col
  | .size => e.size
  | .color => e.color
  | .shape => e.shape

/-- Write a channel slot (the plain field write, no handler). -/
def Encoding.setSlot (e : Encoding) : ChannelName → Channel → Encoding
  | .x, c => { e with x := some c }
  | .y, c => { e with y := some c }
  | .row, c => { e with row := some c }
  | .col, c => { e with col := some c }
  | .size, c => { e with size := some c }
  | .color, c => { e with color := some c }
  | .shape, c => { e with shape := some c }

/-- The config section the slot's constructor sees: `_x_changed` and
`_y_changed` pass `config=self.config` (and `Configurable` then applies
the section named by the class), the other handlers construct with no
config, whose sections are all empty. -/
def Encoding.sectionFor (e : Encoding) : ChannelName → SectionCfg
  | .x => e.config.X
  | .y => e.config.Y
  | _ => {}

/-- `getattr(self.parent, 'data', None)`. -/
def Encoding.parentData (e : Encoding) : Option Dataset :=
  match e.parent with
  | some d => d
  | Option.none => Option.none

/-- `Encoding._x_changed` for a string assignment: construct
`X(new, config=self.config)` (replacing the slot), then, when
`getattr(self.parent, 'data', None) is not None`, run
`self.x._infer_type(self.parent.data)`.  The nested re-trigger of the
handler by the `self.x = X(...)` write performs the same inference
call and collapses to a single one here (inference is idempotent). -/
def Encoding._x_changed (e : Encoding) (new : String) : Except PyError Encoding := do
  let c ← Channel.new .X new e.config.X
  match e.parentData with
  | some d => .ok { e with x := some (c.inferWith d) }
  | Option.none => .ok { e with x := some c }

/-- `Encoding._y_changed`: as `_x_changed`, constructing `Y(new,
config=self.config)`. -/
def Encoding._y_changed (e : Encoding) (new : String) : Except PyError Encoding := do
  let c ← Channel.new .Y new e.config.Y
  match e.parentData with
  | some d => .ok { e with y := some (c.inferWith d) }
  | Option.none => .ok { e with y := some c }

/-- `Encoding._row_changed`: constructs `Row(new)` with no config. -/
def Encoding._row_changed (e : Encoding) (new : String) : Except PyError Encoding := do
  let c ← Channel.new .Row new {}
  match e.parentData with
  | some d => .ok { e with row := some (c.inferWith d) }
  | Option.none => .ok { e with row := some c }

/-- `Encoding._col_changed`: constructs `Col(new)` with no config. -/
def Encoding._col_changed (e : Encoding) (new : String) : Except PyError Encoding := do
  let c ← Channel.new .Col new {}
  match e.parentData with
  | some d => .ok { e with col := some (c.inferWith d) }
  | Option.none => .ok { e with col := some c }

/-- `Encoding._size_changed`: constructs `Size(new)` with no config. -/
def Encoding._size_changed (e : Encoding) (new : String) : Except PyError Encoding := do
  let c ← Channel.new .Size new {}
  match e.parentData with
  | some d => .ok { e with size := some (c.inferWith d) }
  | Option.none => .ok { e with size := some c }

/-- `Encoding._color_changed`: constructs `Color(new)` with no config. -/
def Encoding._color_changed (e : Encoding) (new : String) : Except PyError Encoding := do
  let c ← Channel.new .Color new {}
  match e.parentData with
  | some d => .ok { e with color := some (c.inferWith d) }
  | Option.none => .ok { e with color := some c }

/-- `Encoding._shape_changed`: constructs `Shape(new)`, but unlike every
other handler guards the inference on `self.parent is not None` alone,
so `self.shape._infer_type(self.parent.data)` also runs when the
parent's `data` is `None`. -/
def Encoding._shape_changed (e : Encoding) (new : String) : Except PyError Encoding := do
  let c ← Channel.new .Shape new {}
  match e.parent with
  | some pd => do
    let c ← c._infer_type pd
    .ok { e with shape := some c }
  | Option.none => .ok { e with shape := some c }

/-- Assigning the string `new` to a channel slot: dispatch to the
slot's change handler. -/
def Encoding.assignStr (e : Encoding) : ChannelName → String → Except PyError Encoding
  | .x, new => e._x_changed new
  | .y, new => e._y_changed new
  | .row, new => e._row_changed new
  | .col, new => e._col_changed new
  | .size, new => e._size_changed new
  | .color, new => e._color_changed new
  | .shape, new => e._shape_changed new

/-- `Encoding(**kwargs)`: construct with the given config (applied by
`Configurable` before the channel kwargs) and then set each channel
kwarg in order, firing its change handler; `parent` is still unset
during construction. -/
def Encoding.new (cfg : Config) (kwargs : List (ChannelName × String)) :
    Except PyError Encoding :=
  kwargs.foldlM (fun e kv => e.assignStr kv.1 kv.2) { config := cfg }

/-- One slot of `Encoding._infer_types`: `if val is not None:
val._infer_type(data)`. -/
def inferStep (data : Option Dataset) : Option Channel → Except PyError (Option Channel)
  | some c => (c._infer_type data).map some
  | Option.none => .ok Option.none

/-- `Encoding._infer_types(data)`: for each of the seven slots in order,
if the slot is occupied, run `val._infer_type(data)` on it. -/
def Encoding._infer_types (e : Encoding) (data : Option Dataset) :
    Except PyError Encoding := do
  let vx ← inferStep data e.x
  let vy ← inferStep data e.y
  let vrow ← inferStep data e.row
  let vcol ← inferStep data e.col
  let vsize ← inferStep data e.size
  let vcolor ← inferStep data e.color
  let vshape ← inferStep data e.shape
  .ok { e with x := vx, y := vy, row := vrow, col := vcol,
               size := vsize, color := vcolor, shape := vshape }
/-- The traits `self.traits()` iterates for a `Shape` channel: the
inherited `Shelf` traits plus `value`, `legend`, `filled` (the
`aggregate` override shares the inherited name). -/
def Channel.shapeTraitNames : List String :=
  ["shorthand", "name", "type", "timeUnit", "bin", "sort", "aggregate",
   "value", "legend", "filled", "config"]

/-- `getattr(self, k)` for a `Shape` channel.  `legend` is a
`T.Instance(Legend)` defaulting to `None` and never populated by any
code path here. -/
def Channel.shapeGetattr (c : Channel) : String → PyVal
  | "value" => c.value
  | "legend" => .none
  | "filled" => .bool c.filled
  | k => c.toShelf.getattr k

/-- `Shape.to_dict` (inherited from `BaseObject`, with `Shelf.skip`). -/
def Channel.shape_to_dict (c : Channel) : List (String × PyVal) :=
  dictOf Channel.shapeTraitNames Shelf.skip c.shapeGetattr

/-- `VLConfig`: global chart configuration.  `gridOpacity`
(`T.Float(0.08)`) is a float no claim observes and is omitted. -/
structure VLConfig where
  width : Int := 600
  height : Int := 400
  singleWidth : Option Int := Option.none
  singleHeight : Option Int := Option.none
  gridColor : String := "black"

/-- `int(x * 0.75)` for an integer `x`: Python truncates the exact
product toward zero. -/
def pyIntMul075 (x : Int) : Int := (x * 3).tdiv 4

/-- `int(x / 10)` for an integer `x`: true division then truncation
toward zero. -/
def pyIntDiv10 (x : Int) : Int := x.tdiv 10

/-- `Viz`: the root chart object.  `_data` is the `Data` wrapper built
by `_data_changed` (it stores the bound DataFrame); `data` is the
DataFrame trait itself. -/
structure Viz where
  marktype : String := "point"
  encoding : Option Encoding := Option.none
  vlconfig : VLConfig := {}
  _data : Option Dataset := Option.none
  data : Option Dataset := Option.none

/-- `Viz.skip = ['data', '_data', 'vlconfig']` (for `to_dict`, which no
claim observes; recorded for fidelity). -/
def Viz.skip : List String := ["data", "_data", "vlconfig"]

/-- `Viz._data_changed` for a DataFrame assignment (a non-DataFrame
value is first normalized through `pd.DataFrame(new)`; the claims bind
genuine datasets): the trait already holds `new`, `self._data` is set to
`Data(data=new)`, and if an encoding is present its types are
re-inferred against `self.data`.  The encoding's `parent` back-reference
is live in Python; the snapshot is refreshed accordingly. -/
def Viz._data_changed (v : Viz) (new : Dataset) : Except PyError Viz := do
  let v := { v with data := some new, _data := some new }
  match v.encoding with
  | Option.none => .ok v
  | some e => do
    let e := { e with parent := some v.data }
    let e ← e._infer_types v.data
    .ok { v with encoding := some e }

/-- `Viz.__init__(data, **kwargs)`: the data kwarg is written first; a
`None` value equals the trait default and fires no change handler, a
DataFrame fires `_data_changed` (with no encoding attached yet). -/
def Viz.init (data : Option Dataset) : Viz :=
  match data with
  | Option.none => {}
  | some d => { data := some d, _data := some d }

/-- `Viz._encoding_changed`: the new encoding's `parent` is pointed at
the chart, and if `'data' in self` (the DataFrame branch of
`__contains__`: any bound DataFrame is present, `None` is not) its
types are inferred against `self.data`. -/
def Viz._encoding_changed (v : Viz) (new : Encoding) : Except PyError Viz := do
  let e := { new with parent := some v.data }
  match v.data with
  | some d => do
    let e ← e._infer_types (some d)
    .ok { v with encoding := some e }
  | Option.none => .ok { v with encoding := some e }

/-- `Viz.encode(**kwargs)`: replace the encoding wholesale with
`Encoding(**kwargs)` (no config), firing `_encoding_changed`. -/
def Viz.encode (v : Viz) (kwargs : List (ChannelName × String)) :
    Except PyError Viz := do
  let e ← Encoding.new {} kwargs
  v._encoding_changed e

/-- `Viz.set_single_dims(width, height)`: write the four `vlconfig`
dimensions, then attach band-size overrides to the `x`/`y` channels
whose resolved type is nominal or ordinal.  `self.encoding.x.type`
raises `AttributeError` when the encoding or the channel is absent. -/
def Viz.set_single_dims (v : Viz) (width height : Int) : Except PyError Viz := do
  let v := { v with vlconfig :=
    { v.vlconfig with
      width := width, height := height,
      singleWidth := some (pyIntMul075 width),
      singleHeight := some (pyIntMul075 height) } }
  match v.encoding with
  | Option.none => .error .attributeError
  | some e =>
    match e.x with
    | Option.none => .error .attributeError
    | some cx =>
      let e := if cx.type = some .N ∨ cx.type = some .O then
          { e with x := some { cx with band := some { size := pyIntDiv10 width } } }
        else e
      match e.y with
      | Option.none => .error .attributeError
      | some cy =>
        let e := if cy.type = some .N ∨ cy.type = some .O then
            { e with y := some { cy with band := some { size := pyIntDiv10 height } } }
          else e
        .ok { v with encoding := some e }

/-- `Viz.hist(bins, **kwargs)`: set the marktype to `bar`, build a
`Config` forcing `Y.type = 'Q'` and `Y.aggregate = 'count'`, replace the
encoding with `Encoding(config=config, y='', **kwargs)` (so a y-change
is triggered), then if the `x` kwarg was a string attach
`Bin(maxbins=bins)` to the x channel, and finally force
`self.encoding.y.name = self.encoding.x.name` (raising
`AttributeError` when `x` is absent). -/
def Viz.hist (v : Viz) (bins : Int) (kwargs : List (ChannelName × String)) :
    Except PyError Viz := do
  let v := { v with marktype := "bar" }
  let config : Config := { Y := { type := some .Q, aggregate := some .count } }
  let e ← Encoding.new config ((ChannelName.y, "") :: kwargs)
  let v ← v._encoding_changed e
  let v ←
    if (kwargs.lookup ChannelName.x).isSome then
      match v.encoding with
      | some e =>
        match e.x with
        | some cx =>
          let cx := { cx with bin := BinVal.spec { maxbins := bins } }
          pure { v with encoding := some { e with x := some cx } }
        | Option.none => Except.error .attributeError
      | Option.none => Except.error .attributeError
    else pure v
  match v.encoding with
  | some e =>
    match e.x, e.y with
    | some cx, some cy =>
      .ok { v with encoding := some { e with y := some { cy with name := cx.name } } }
    | _, _ => .error .attributeError
  | Option.none => .error .attributeError

/-- A renderer object (opaque: rendering is outside the core). -/
structure RendererInst where
  tag : String
deriving Repr, DecidableEq

/-- The module-level renderer registry: `_renderers` maps names to
factories (modelled by the instance the factory builds), `_renderer` is
the currently selected renderer. -/
structure RendererRegistry where
  renderers : List (String × RendererInst)
  current : Option RendererInst
deriving Repr, DecidableEq

/-- The registry as the module initializes it: factories for
`matplotlib` and `lightning`, no current renderer. -/
def initialRegistry : RendererRegistry :=
  { renderers := [("matplotlib", { tag := "matplotlib" }),
                  ("lightning", { tag := "lightning" })],
    current := Option.none }

/-- `register_renderer(name, rfactory)`. -/
def register_renderer (st : RendererRegistry) (name : String)
    (rfactory : RendererInst) : RendererRegistry :=
  { st with renderers := (name, rfactory) :: st.renderers }

/-- The argument of `use_renderer`: an actual `Renderer` instance or a
registered name. -/
inductive RendererArg where
  | inst (r : RendererInst)
  | name (s : String)

/-- `use_renderer(r)`: a `Renderer` instance is installed directly; a
registered name has its factory called and the result installed.  For an
unknown name the source executes
`raise ValueError('renderer could not be found: ...').format(r)`: the
`.format` call is made on the `ValueError` instance, which has no such
attribute, so what is actually raised is an `AttributeError` (the
intended, never-raised `ValueError` would be the `RendererNotFound`
condition). -/
def use_renderer (st : RendererRegistry) (r : RendererArg) :
    Except PyError RendererRegistry :=
  match r with
  | .inst ri => .ok { st with current := some ri }
  | .name s =>
    match st.renderers.lookup s with
    | some factory => .ok { st with current := some factory }
    | Option.none => .error .attributeError

/-- `list_renderers()`. -/
def list_renderers (st : RendererRegistry) : List String :=
  st.renderers.map Prod.fst
/-! ## Helper lemmas -/

/-- `_infer_type` with an actual DataFrame argument never raises and
equals the pure `inferWith`. -/
theorem Shelf._infer_type_some (s : Shelf) (d : Dataset) :
    s._infer_type (some d) = .ok (s.inferWith d) := by
  cases h : s.type <;> simp [Shelf._infer_type, Shelf.inferWith, h]

theorem Channel.infer_type_ok (c : Channel) (d : Dataset) :
    c._infer_type (some d) = .ok (c.inferWith d) := by
  simp [Channel._infer_type, Channel.inferWith, Shelf._infer_type_some,
    Except.map]

/-- A channel with a resolved type is untouched by `inferWith`. -/
theorem Shelf.inferWith_of_resolved (s : Shelf) (d : Dataset) (t : VLType)
    (h : s.type = some t) : s.inferWith d = s := by
  simp [Shelf.inferWith, h]

/-- Key membership in a `to_dict` mapping: a key is present exactly when
it is one of the entity's traits, is not skipped, and its value passes
`__contains__`. -/
theorem mem_dictOf (names skip : List String) (get : String → PyVal) (k : String) :
    (∃ v, (k, v) ∈ dictOf names skip get) ↔
      (k ∈ names ∧ skip.contains k = false ∧ base_contains (get k) = true) := by
  constructor
  · rintro ⟨v, hv⟩
    rw [dictOf, List.mem_filterMap] at hv
    obtain ⟨a, ha, hfa⟩ := hv
    by_cases h : (base_contains (get a) && !(skip.contains a)) = true
    · rw [if_pos h] at hfa
      obtain ⟨rfl, -⟩ : a = k ∧ (get a).serializeBase = v := by
        have := Option.some.inj hfa
        exact ⟨congrArg Prod.fst this, congrArg Prod.snd this⟩
      simp only [Bool.and_eq_true, Bool.not_eq_true'] at h
      exact ⟨ha, h.2, h.1⟩
    · rw [if_neg h] at hfa
      cases hfa
  · rintro ⟨hk, hskip, hcont⟩
    refine ⟨(get k).serializeBase, ?_⟩
    rw [dictOf, List.mem_filterMap]
    exact ⟨k, hk, by rw [if_pos (by rw [hcont, hskip]; rfl)]⟩

/-! ## Claims -/

/-- Claim C1, counterexample to the claim as stated.  The claim asserts
that a `Shelf` with `bin=False` omits the `bin` key from `to_dict()`; on
the code, `False` is a `bool`, `__contains__` therefore reports it
present, and the default `Shelf` serializes *with* `'bin': False`. -/
theorem claim_C1_counterexample :
    ("bin", PyVal.bool false) ∈ Shelf.to_dict { bin := BinVal.b false } := by
  have h : Shelf.to_dict { bin := BinVal.b false } = [("bin", PyVal.bool false)] := rfl
  rw [h]
  exact List.mem_singleton.mpr rfl

/-- Claim C1 (amended): `to_dict()` includes an attribute `k` iff `k` is
not in the entity's skip list and `k` is present in the sense of
`__contains__` (a DataFrame, or non-None and either a boolean or
truthy).  In particular a `Shelf` with `aggregate` unset omits
`aggregate`, a `Shape` with `filled=False` still includes
`'filled': False` — and, contrary to the original claim, a `Shelf` with
`bin=False` likewise still includes `'bin': False`, since `False` is a
boolean and the presence rule admits every boolean. -/
theorem claim_C1 (s : Shelf) (k : String) (c : Channel) :
    ((∃ v, (k, v) ∈ s.to_dict) ↔
      (k ∈ Shelf.traitNames ∧ Shelf.skip.contains k = false ∧
        base_contains (s.getattr k) = true))
    ∧ (s.aggregate = Option.none → ¬ ∃ v, ("aggregate", v) ∈ s.to_dict)
    ∧ (s.bin = BinVal.b false → ("bin", PyVal.bool false) ∈ s.to_dict)
    ∧ (c.filled = false → ("filled", PyVal.bool false) ∈ c.shape_to_dict) := by
  refine ⟨mem_dictOf _ _ _ _, ?_, ?_, ?_⟩
  · intro hagg hmem
    have h := (mem_dictOf Shelf.traitNames Shelf.skip s.getattr "aggregate").mp hmem
    have : base_contains (s.getattr "aggregate") = false := by
      simp [Shelf.getattr, hagg, base_contains, py_isNone]
    rw [this] at h
    exact absurd h.2.2 (by simp)
  · intro hbin
    rw [Shelf.to_dict, dictOf, List.mem_filterMap]
    refine ⟨"bin", by simp [Shelf.traitNames], ?_⟩
    have hg : s.getattr "bin" = PyVal.bool false := by rw [Shelf.getattr, hbin]
    rw [hg]
    rfl
  · intro hfill
    rw [Channel.shape_to_dict, dictOf, List.mem_filterMap]
    refine ⟨"filled", by simp [Channel.shapeTraitNames], ?_⟩
    have hg : c.shapeGetattr "filled" = PyVal.bool false := by
      rw [Channel.shapeGetattr, hfill]
    rw [hg]
    rfl

/-- Claim C1, witness: the amended theorem evaluated on the default
`Shelf` (whose `aggregate` is unset and whose `bin` is `False`) and the
default `Shape` (whose `filled` is `False`). -/
theorem claim_C1_witness :
    (∃ v, ("bin", v) ∈ Shelf.to_dict {})
    ∧ (¬ ∃ v, ("aggregate", v) ∈ Shelf.to_dict {})
    ∧ ("filled", PyVal.bool false) ∈ (Channel.defaults .Shape).shape_to_dict := by
  refine ⟨?_, ?_, ?_⟩
  · exact (claim_C1 {} "bin" (Channel.defaults .Shape)).1.mpr
      ⟨by simp [Shelf.traitNames], rfl, rfl⟩
  · exact (claim_C1 {} "aggregate" (Channel.defaults .Shape)).2.1 rfl
  · exact (claim_C1 {} "filled" (Channel.defaults .Shape)).2.2.2 rfl

/-- The fully resolved `Shelf` that `Shelf('avg(price):Q')` constructs. -/
def shelfAvgPriceQ : Shelf :=
  { shorthand := "avg(price):Q", name := "price", type := some .Q,
    aggregate := some .avg }

/-- Claim C8: the shorthand `avg(price):Q` round-trips — construction
parses it into `name='price'`, `type='Q'`, `aggregate='avg'`, and
`to_dict()` then carries `aggregate="avg"`, `name="price"`, `type="Q"`
while excluding the raw `shorthand` itself. -/
theorem claim_C8 :
    Shelf.from_shorthand "avg(price):Q" = .ok shelfAvgPriceQ
    ∧ shelfAvgPriceQ.to_dict.lookup "aggregate" = some (.str "avg")
    ∧ shelfAvgPriceQ.to_dict.lookup "name" = some (.str "price")
    ∧ shelfAvgPriceQ.to_dict.lookup "type" = some (.str "Q")
    ∧ shelfAvgPriceQ.to_dict.lookup "shorthand" = Option.none := by
  exact ⟨rfl, rfl, rfl, rfl, rfl⟩

/-- `inferStep` with an actual DataFrame never raises: the occupied slot
is replaced by its `inferWith`. -/
theorem inferStep_some (d : Dataset) (v : Option Channel) :
    inferStep (some d) v = .ok (v.map fun c => c.inferWith d) := by
  cases v with
  | none => rfl
  | some c => simp [inferStep, Channel.infer_type_ok, Except.map]

/-- `_infer_types` with an actual DataFrame never raises and replaces
every occupied slot by its `inferWith`. -/
theorem Encoding._infer_types_some (e : Encoding) (d : Dataset) :
    e._infer_types (some d) = .ok
      { e with x := e.x.map fun c => c.inferWith d,
               y := e.y.map fun c => c.inferWith d,
               row := e.row.map fun c => c.inferWith d,
               col := e.col.map fun c => c.inferWith d,
               size := e.size.map fun c => c.inferWith d,
               color := e.color.map fun c => c.inferWith d,
               shape := e.shape.map fun c => c.inferWith d } := by
  simp only [Encoding._infer_types, inferStep_some]
  rfl

/-- Re-inferring an already-inferred shelf changes nothing. -/
theorem Shelf.inferWith_idem (s : Shelf) (d : Dataset) :
    (s.inferWith d).inferWith d = s.inferWith d := by
  cases h : s.type with
  | some t => simp [Shelf.inferWith, h]
  | none =>
    cases hf : d.findCol s.name with
    | some c =>
      have h1 : s.inferWith d = { s with type := some (infer_vegalite_type c) } := by
        simp [Shelf.inferWith, h, hf]
      rw [h1]
      simp [Shelf.inferWith]
    | none =>
      have h1 : s.inferWith d = s := by simp [Shelf.inferWith, h, hf]
      rw [h1, h1]

/-- Whether an occupied slot already has a resolved type. -/
def resolvedOpt : Option Channel → Bool
  | some c => c.type.isSome
  | Option.none => true

/-- Every occupied channel of the encoding has a resolved type. -/
def Encoding.fullyResolved (e : Encoding) : Bool :=
  resolvedOpt e.x && resolvedOpt e.y && resolvedOpt e.row && resolvedOpt e.col &&
    resolvedOpt e.size && resolvedOpt e.color && resolvedOpt e.shape

/-- A resolved slot passes through `inferWith` unchanged. -/
theorem mapInfer_of_resolved (v : Option Channel) (d : Dataset)
    (h : resolvedOpt v = true) : (v.map fun c => c.inferWith d) = v := by
  cases v with
  | none => rfl
  | some c =>
    obtain ⟨t, ht⟩ := Option.isSome_iff_exists.mp h
    simp [Channel.inferWith, Shelf.inferWith_of_resolved c.toShelf d t ht]

/-- Claim C5: type resolution is idempotent.  A second `_infer_type`
on the shelf produced by a first call (same dataset) returns that shelf
unchanged — inference only fires while `type` is unset — and
`_infer_types` on an encoding all of whose occupied channels are
resolved returns the encoding unchanged. -/
theorem claim_C5 (s s2 : Shelf) (d : Dataset) (e : Encoding) :
    (s._infer_type (some d) = .ok s2 → s2._infer_type (some d) = .ok s2)
    ∧ (e.fullyResolved = true → e._infer_types (some d) = .ok e) := by
  constructor
  · intro h1
    rw [Shelf._infer_type_some] at h1
    obtain rfl : s2 = s.inferWith d := (Except.ok.inj h1).symm
    rw [Shelf._infer_type_some, Shelf.inferWith_idem]
  · intro hres
    simp only [Encoding.fullyResolved, Bool.and_eq_true] at hres
    obtain ⟨⟨⟨⟨⟨⟨hx, hy⟩, hrow⟩, hcol⟩, hsize⟩, hcolor⟩, hshape⟩ := hres
    rw [Encoding._infer_types_some,
      mapInfer_of_resolved _ _ hx, mapInfer_of_resolved _ _ hy,
      mapInfer_of_resolved _ _ hrow, mapInfer_of_resolved _ _ hcol,
      mapInfer_of_resolved _ _ hsize, mapInfer_of_resolved _ _ hcolor,
      mapInfer_of_resolved _ _ hshape]

/-- Claim C5, witness: a shelf whose type resolves against a one-column
dataset, then resolves again to the same state; and an encoding with one
resolved channel on which `_infer_types` is a no-op. -/
theorem claim_C5_witness :
    Shelf._infer_type { name := "age", type := some .Q }
        (some [{ name := "age", dtype := .numeric }])
      = .ok { name := "age", type := some .Q }
    ∧ Encoding._infer_types { x := some { kind := .X, type := some .N } }
        (some [{ name := "age", dtype := .numeric }])
        = .ok { x := some { kind := .X, type := some .N } } := by
  have h := claim_C5 { name := "age" } { name := "age", type := some .Q }
    [{ name := "age", dtype := .numeric }]
    { x := some { kind := .X, type := some .N } }
  exact ⟨h.1 rfl, h.2 rfl⟩

/-- Claim C7: for a name that is not registered (and is not a `Renderer`
instance), `use_renderer` raises immediately at the call site — but what
it raises is an `AttributeError`, not the intended
`RendererNotFound`/`ValueError`: the source misplaces a parenthesis and
calls `.format` on the constructed `ValueError` instance itself. -/
theorem claim_C7 :
    use_renderer initialRegistry (.name "nosuchrenderer") = .error .attributeError
    ∧ use_renderer initialRegistry (.name "nosuchrenderer")
        ≠ .error PyError.valueError := by
  refine ⟨rfl, fun h => ?_⟩
  rw [show use_renderer initialRegistry (.name "nosuchrenderer")
      = .error .attributeError from rfl] at h
  exact PyError.noConfusion (Except.error.inj h)

/-- When the channel is unresolved and its column is found, `inferWith`
resolves the type from the column's dtype. -/
theorem Channel.inferWith_hit (c : Channel) (d : Dataset) (col : Column)
    (htype : c.type = Option.none) (hfind : d.findCol c.name = some col) :
    c.inferWith d = { c with type := some (infer_vegalite_type col) } := by
  simp [Channel.inferWith, Shelf.inferWith, htype, hfind]

/-- The channel `X('age')` constructs (empty config section). -/
def chAge : Channel := { kind := .X, shorthand := "age", name := "age" }

/-- The channel `Y('city')` constructs (empty config section). -/
def chCity : Channel := { kind := .Y, shorthand := "city", name := "city" }

/-- `Encoding(x='age', y='city')` before a parent resolves anything. -/
theorem encoding_new_age_city :
    Encoding.new {} [(.x, "age"), (.y, "city")]
      = .ok { x := some chAge, y := some chCity } := rfl

/-- Claim C9: type inference is deterministic and dtype-driven — on a
chart bound to a dataset whose column `age` is numeric and whose column
`city` is textual/unordered, `encode(x='age', y='city')` resolves
`x.type` to `Q` and `y.type` to `N`; and the policy maps numeric to Q,
temporal to T, ordered categorical to O, unordered/text to N. -/
theorem claim_C9 (d : Dataset) (ca cc : Column)
    (hage : d.findCol "age" = some ca) (hca : ca.dtype = .numeric)
    (hcity : d.findCol "city" = some cc) (hcc : cc.dtype = .catUnordered) :
    (((Viz.init (some d)).encode [(.x, "age"), (.y, "city")]).map fun v =>
        ((v.encoding.bind fun e => e.x).map fun ch => ch.type,
         (v.encoding.bind fun e => e.y).map fun ch => ch.type))
      = .ok (some (some .Q), some (some .N))
    ∧ (∀ c : Column, c.dtype = .numeric → infer_vegalite_type c = .Q)
    ∧ (∀ c : Column, c.dtype = .temporal → infer_vegalite_type c = .T)
    ∧ (∀ c : Column, c.dtype = .catOrdered → infer_vegalite_type c = .O)
    ∧ (∀ c : Column, c.dtype = .catUnordered → infer_vegalite_type c = .N) := by
  refine ⟨?_, fun c h => by simp [infer_vegalite_type, h],
    fun c h => by simp [infer_vegalite_type, h],
    fun c h => by simp [infer_vegalite_type, h],
    fun c h => by simp [infer_vegalite_type, h]⟩
  have hxc : chAge.inferWith d = { chAge with type := some VLType.Q } := by
    rw [Channel.inferWith_hit chAge d ca rfl hage]
    simp [infer_vegalite_type, hca]
  have hyc : chCity.inferWith d = { chCity with type := some VLType.N } := by
    rw [Channel.inferWith_hit chCity d cc rfl hcity]
    simp [infer_vegalite_type, hcc]
  simp only [Viz.encode, Viz.init, encoding_new_age_city, bind, Except.bind,
    Viz._encoding_changed, Encoding._infer_types_some, Option.map, hxc, hyc,
    Except.map, Option.bind]

/-- Claim C9, witness: the concrete two-column dataset. -/
theorem claim_C9_witness :
    (((Viz.init (some [{ name := "age", dtype := .numeric },
                       { name := "city", dtype := .catUnordered }])).encode
        [(.x, "age"), (.y, "city")]).map fun v =>
        ((v.encoding.bind fun e => e.x).map fun ch => ch.type,
         (v.encoding.bind fun e => e.y).map fun ch => ch.type))
      = .ok (some (some .Q), some (some .N)) :=
  (claim_C9 [{ name := "age", dtype := .numeric },
             { name := "city", dtype := .catUnordered }]
    { name := "age", dtype := .numeric } { name := "city", dtype := .catUnordered }
    rfl rfl rfl rfl).1

/-- A channel whose column is not in the dataset is untouched. -/
theorem Channel.inferWith_miss (c : Channel) (d : Dataset)
    (h : d.findCol c.name = Option.none) : c.inferWith d = c := by
  cases ht : c.type <;> simp [Channel.inferWith, Shelf.inferWith, ht, h]

/-- A channel with a resolved type is untouched. -/
theorem Channel.inferWith_resolved (c : Channel) (d : Dataset) (t : VLType)
    (h : c.type = some t) : c.inferWith d = c := by
  simp [Channel.inferWith, Shelf.inferWith_of_resolved c.toShelf d t h]

/-- `Encoding(x='age')` before a parent resolves anything. -/
theorem encoding_new_age :
    Encoding.new {} [(.x, "age")] = .ok { x := some chAge } := rfl

/-- Claim C3: late-binding dataset resolution.  `encode(x='age')` on a
chart with no dataset leaves `x.type` unresolved; a later assignment of
a dataset to `chart.data` re-runs inference for `x` against the new
dataset; and any channel whose type was already resolved before the
rebind keeps its previous type unchanged. -/
theorem claim_C3 (d : Dataset) (ca : Column) (v : Viz) (e : Encoding)
    (cn : ChannelName) (ch : Channel) (t : VLType)
    (hage : d.findCol "age" = some ca) :
    (((Viz.init Option.none).encode [(.x, "age")]).map fun v1 =>
        (v1.encoding.bind fun e1 => e1.x).map fun c => c.type)
      = .ok (some Option.none)
    ∧ (((Viz.init Option.none).encode [(.x, "age")] >>= fun v1 =>
          v1._data_changed d).map fun v2 =>
        (v2.encoding.bind fun e2 => e2.x).map fun c => c.type)
      = .ok (some (some (infer_vegalite_type ca)))
    ∧ (v.encoding = some e → e.getSlot cn = some ch → ch.type = some t →
        (v._data_changed d).map (fun v2 =>
            (v2.encoding.bind fun e2 => e2.getSlot cn).map fun c => c.type)
          = .ok (some (some t))) := by
  refine ⟨rfl, ?_, ?_⟩
  · have hxc : chAge.inferWith d = { chAge with type := some (infer_vegalite_type ca) } :=
      Channel.inferWith_hit chAge d ca rfl hage
    simp only [Viz.encode, Viz.init, encoding_new_age, bind, Except.bind,
      Viz._encoding_changed, Viz._data_changed, Encoding._infer_types_some,
      Option.map, hxc, Except.map, Option.bind]
  · intro hv hslot htype
    have hch : ch.inferWith d = ch := Channel.inferWith_resolved ch d t htype
    cases cn <;>
      simp only [Encoding.getSlot] at hslot <;>
      simp only [Viz._data_changed, hv, Encoding._infer_types_some, bind,
        Except.bind, Except.map, Encoding.getSlot, hslot, Option.map, hch,
        Option.bind, htype]

/-- Claim C3, witness: the first two conjuncts at the concrete
one-column dataset, and the third at a chart whose `y` channel is
already resolved to `T`. -/
theorem claim_C3_witness :
    (((Viz.init Option.none).encode [(.x, "age")]).map fun v1 =>
        (v1.encoding.bind fun e1 => e1.x).map fun c => c.type)
      = .ok (some Option.none)
    ∧ (((Viz.init Option.none).encode [(.x, "age")] >>= fun v1 =>
          v1._data_changed [{ name := "age", dtype := .numeric }]).map fun v2 =>
        (v2.encoding.bind fun e2 => e2.x).map fun c => c.type)
      = .ok (some (some .Q))
    ∧ (({ encoding := some { y := some { kind := .Y, type := some .T } } } :
          Viz)._data_changed [{ name := "age", dtype := .numeric }]).map
        (fun v2 => (v2.encoding.bind fun e2 => e2.getSlot .y).map fun c => c.type)
      = .ok (some (some .T)) := by
  have h := claim_C3 [{ name := "age", dtype := .numeric }]
    { name := "age", dtype := .numeric }
    { encoding := some { y := some { kind := .Y, type := some .T } } }
    { y := some { kind := .Y, type := some .T } } .y
    { kind := .Y, type := some .T } .T rfl
  exact ⟨h.1, h.2.1, h.2.2 rfl rfl rfl⟩

/-- `SectionCfg.apply` and the shorthand re-parse both leave the channel
class and the stored shorthand alone, so a successful construction
yields a channel of the requested class carrying the given shorthand. -/
theorem Channel.new_spec (k : ChannelKind) (s : String) (cfg : SectionCfg)
    (ch0 : Channel) (h : Channel.new k s cfg = .ok ch0) :
    ch0.kind = k ∧ ch0.shorthand = s := by
  have happ : ∀ c : Channel, (cfg.apply c).kind = c.kind
      ∧ (cfg.apply c).shorthand = c.shorthand := by
    intro c
    unfold SectionCfg.apply
    cases cfg.name <;> cases cfg.type <;> cases cfg.aggregate <;> simp
  have hpar : ∀ (c : Channel) (r : ShorthandResult),
      (c.applyParsed r).kind = c.kind
      ∧ (c.applyParsed r).shorthand = c.shorthand := by
    intro c r
    unfold Channel.applyParsed Shelf.applyParsed
    cases r.name <;> cases r.type <;> cases r.aggregate <;> cases r.timeUnit <;> simp
  unfold Channel.new at h
  by_cases hs : s = ""
  · rw [if_pos hs] at h
    obtain rfl := Except.ok.inj h
    refine ⟨((happ _).1).trans rfl, ((happ _).2).trans ?_⟩
    rw [hs]
  · rw [if_neg hs] at h
    cases hp : parse_shorthand s with
    | error err => rw [hp] at h; cases h
    | ok r =>
      rw [hp] at h
      obtain rfl := Except.ok.inj h
      refine ⟨((hpar _ _).1).trans ((happ _).1), ((hpar _ _).2).trans ((happ _).2)⟩

/-- Claim C4: for every channel slot, assigning a string constructs the
matching channel subtype with that string as its shorthand, replaces the
slot with the constructed FieldSpec, and — the owning chart having a
bound dataset — runs type inference on it against that dataset before
the assignment returns. -/
theorem claim_C4 (e : Encoding) (d : Dataset) (cn : ChannelName) (s : String)
    (ch0 : Channel)
    (hnew : Channel.new cn.kindOf s (e.sectionFor cn) = .ok ch0)
    (hpar : e.parent = some (some d)) :
    e.assignStr cn s = .ok (e.setSlot cn (ch0.inferWith d))
    ∧ ch0.kind = cn.kindOf ∧ ch0.shorthand = s := by
  refine ⟨?_, (Channel.new_spec _ _ _ _ hnew).1, (Channel.new_spec _ _ _ _ hnew).2⟩
  cases cn <;>
    simp only [ChannelName.kindOf, Encoding.sectionFor] at hnew <;>
    simp only [Encoding.assignStr, Encoding._x_changed, Encoding._y_changed,
      Encoding._row_changed, Encoding._col_changed, Encoding._size_changed,
      Encoding._color_changed, Encoding._shape_changed, hnew, bind, Except.bind,
      Encoding.parentData, hpar, Encoding.setSlot, Channel.infer_type_ok]

/-- Claim C4, witness: assigning `'city'` to the `row` slot of an
encoding whose parent chart binds a one-column dataset. -/
theorem claim_C4_witness :
    ({ parent := some (some [{ name := "city", dtype := .catUnordered }]) } :
        Encoding).assignStr .row "city"
      = .ok (({ parent := some (some [{ name := "city", dtype := .catUnordered }]) } :
          Encoding).setSlot .row
          (({ kind := .Row, shorthand := "city", name := "city" } :
            Channel).inferWith [{ name := "city", dtype := .catUnordered }]))
    ∧ ({ kind := .Row, shorthand := "city", name := "city" } : Channel).kind
        = ChannelName.row.kindOf
    ∧ ({ kind := .Row, shorthand := "city", name := "city" } : Channel).shorthand
        = "city" := by
  exact claim_C4
    { parent := some (some [{ name := "city", dtype := .catUnordered }]) }
    [{ name := "city", dtype := .catUnordered }] .row "city"
    { kind := .Row, shorthand := "city", name := "city" } rfl rfl

/-- When the parse result carries no type, applying it leaves the type
trait alone. -/
theorem Shelf.applyParsed_type_none (s : Shelf) (r : ShorthandResult)
    (h : r.type = Option.none) : (s.applyParsed r).type = s.type := by
  unfold Shelf.applyParsed
  cases r.name <;> cases r.aggregate <;> cases r.timeUnit <;> simp [h]

/-- Claim C10: with a parent chart attached but no dataset bound
(`parent.data is None`), assigning a parseable string to any of the six
channels x/y/row/col/size/color succeeds with inference skipped (the
slot holds the constructed channel, uninfered), while assigning a string
whose parse leaves the type unset to the `shape` channel raises a
`TypeError` — its handler guards only on `parent` being non-None and so
runs `_infer_type(None)`. -/
theorem claim_C10 (e : Encoding) (s : String) (r : ShorthandResult)
    (hparse : parse_shorthand s = .ok r) (hpar : e.parent = some Option.none) :
    (∀ cn : ChannelName, cn ≠ .shape →
      ∀ ch0 : Channel, Channel.new cn.kindOf s (e.sectionFor cn) = .ok ch0 →
        e.assignStr cn s = .ok (e.setSlot cn ch0))
    ∧ (r.type = Option.none → e._shape_changed s = .error .typeError) := by
  constructor
  · intro cn hcn ch0 hnew
    cases cn <;>
      simp only [ChannelName.kindOf, Encoding.sectionFor] at hnew <;>
      first
      | exact absurd rfl hcn
      | simp only [Encoding.assignStr, Encoding._x_changed, Encoding._y_changed,
          Encoding._row_changed, Encoding._col_changed, Encoding._size_changed,
          Encoding._color_changed, hnew, bind, Except.bind,
          Encoding.parentData, hpar, Encoding.setSlot]
  · intro hrt
    have hch : ∃ c : Channel, Channel.new .Shape s {} = .ok c
        ∧ c.type = Option.none := by
      unfold Channel.new
      by_cases hs : s = ""
      · rw [if_pos hs]
        exact ⟨_, rfl, rfl⟩
      · rw [if_neg hs, hparse]
        refine ⟨_, rfl, ?_⟩
        rw [show (SectionCfg.apply {}
            { Channel.defaults .Shape with shorthand := s }).applyParsed r
          = Channel.applyParsed (SectionCfg.apply {}
            { Channel.defaults .Shape with shorthand := s }) r from rfl]
        rw [show ∀ c : Channel, (c.applyParsed r).type
            = (c.toShelf.applyParsed r).type from fun c => rfl]
        rw [Shelf.applyParsed_type_none _ r hrt]
        rfl
    obtain ⟨c, hc, hct⟩ := hch
    simp only [Encoding._shape_changed, hc, hpar, bind, Except.bind,
      Channel._infer_type, Shelf._infer_type, hct]
    rfl

/-- Claim C10, witness: on an encoding whose parent chart has no bound
dataset, `color = 'city'` succeeds while `shape = 'city'` raises. -/
theorem claim_C10_witness :
    ({ parent := some Option.none } : Encoding).assignStr .color "city"
      = .ok (({ parent := some Option.none } : Encoding).setSlot .color
          { kind := .Color, shorthand := "city", name := "city",
            value := .str "#4682b4" })
    ∧ ({ parent := some Option.none } : Encoding)._shape_changed "city"
      = .error .typeError := by
  have h := claim_C10 { parent := some Option.none } "city"
    { name := some "city" } rfl rfl
  exact ⟨h.1 .color (fun hc => ChannelName.noConfusion hc)
    { kind := .Color, shorthand := "city", name := "city",
      value := .str "#4682b4" } rfl, h.2 rfl⟩

/-- The y channel `Y('', config=config)` constructs inside `hist`: the
empty shorthand fires no re-parse, and the config section forces
`type='Q'`, `aggregate='count'`. -/
def chHistY : Channel :=
  { kind := .Y, shorthand := "", type := some .Q, aggregate := some .count }

/-- `Encoding(config=config, y='', x='age')` as built by `hist`, before
a parent is attached. -/
theorem encoding_new_hist :
    Encoding.new { Y := { type := some .Q, aggregate := some .count } }
      [(.y, ""), (.x, "age")]
      = .ok { y := some chHistY, x := some chAge,
              config := { Y := { type := some .Q, aggregate := some .count } } } := rfl

/-- Claim C2: `hist(bins=5, x='age')` on a chart bound to a dataset
containing a column `age` sets the marktype to `bar`, attaches
`Bin(maxbins=5)` to the x channel (x was given as a bare string), forces
`aggregate='count'` and `type='Q'` on the y channel, and makes the y
channel's `name` equal the x channel's (`'age'`). -/
theorem claim_C2 (d : Dataset) (_hhas : d.hasCol "age" = true) :
    (((Viz.init (some d)).hist 5 [(.x, "age")]).map fun v =>
        (v.marktype,
         (v.encoding.bind fun e => e.x).map fun ch => ch.bin,
         (v.encoding.bind fun e => e.y).map fun ch => ch.aggregate,
         (v.encoding.bind fun e => e.y).map fun ch => ch.type,
         (v.encoding.bind fun e => e.y).map fun ch => ch.name,
         (v.encoding.bind fun e => e.x).map fun ch => ch.name))
      = .ok ("bar", some (BinVal.spec { maxbins := 5 }), some (some .count),
             some (some .Q), some "age", some "age") := by
  have hy : chHistY.inferWith d = chHistY :=
    Channel.inferWith_resolved chHistY d .Q rfl
  cases hf : d.findCol "age" with
  | none =>
    have hx : chAge.inferWith d = chAge := Channel.inferWith_miss chAge d hf
    simp only [Viz.hist, Viz.init, encoding_new_hist, bind, Except.bind, pure,
      Except.pure, Viz._encoding_changed, Encoding._infer_types_some, Option.map,
      hx, hy, Except.map, Option.bind]
    rfl
  | some ca =>
    have hx : chAge.inferWith d
        = { chAge with type := some (infer_vegalite_type ca) } :=
      Channel.inferWith_hit chAge d ca rfl hf
    simp only [Viz.hist, Viz.init, encoding_new_hist, bind, Except.bind, pure,
      Except.pure, Viz._encoding_changed, Encoding._infer_types_some, Option.map,
      hx, hy, Except.map, Option.bind]
    rfl

/-- Claim C2, witness: the concrete one-column dataset. -/
theorem claim_C2_witness :
    (((Viz.init (some [{ name := "age", dtype := .numeric }])).hist 5
        [(.x, "age")]).map fun v =>
        (v.marktype,
         (v.encoding.bind fun e => e.x).map fun ch => ch.bin,
         (v.encoding.bind fun e => e.y).map fun ch => ch.aggregate,
         (v.encoding.bind fun e => e.y).map fun ch => ch.type,
         (v.encoding.bind fun e => e.y).map fun ch => ch.name,
         (v.encoding.bind fun e => e.x).map fun ch => ch.name))
      = .ok ("bar", some (BinVal.spec { maxbins := 5 }), some (some .count),
             some (some .Q), some "age", some "age") :=
  claim_C2 [{ name := "age", dtype := .numeric }] rfl

/-- Truncating division agrees with floor division on nonnegative
operands (both equal Euclidean division there). -/
theorem tdiv_eq_fdiv_of_nonneg (a b : Int) (ha : 0 ≤ a) (hb : 0 ≤ b) :
    a.tdiv b = a.fdiv b :=
  (Int.tdiv_eq_ediv ha hb).trans (Int.fdiv_eq_ediv a hb).symm

/-- Claim C6: `set_single_dims(width, height)` writes `width`/`height`
into the chart config, sets `singleWidth`/`singleHeight` to the floor of
three quarters of each (for nonnegative dimensions Python's
`int(x * 0.75)` truncation is the floor), and when the `x` channel's
resolved type is `N` or `O` attaches a band of size `floor(width / 10)`
to it, symmetrically for `y` with `floor(height / 10)`. -/
theorem claim_C6 (v : Viz) (e : Encoding) (cx cy : Channel) (w h : Int)
    (hv : v.encoding = some e) (hx : e.x = some cx) (hy : e.y = some cy)
    (hw : 0 ≤ w) (hh : 0 ≤ h) :
    (v.set_single_dims w h).map (fun v2 =>
        (v2.vlconfig.width, v2.vlconfig.height,
         v2.vlconfig.singleWidth, v2.vlconfig.singleHeight))
      = .ok (w, h, some ((w * 3).fdiv 4), some ((h * 3).fdiv 4))
    ∧ (cx.type = some .N ∨ cx.type = some .O →
        (v.set_single_dims w h).map (fun v2 => v2.encoding.bind fun e2 => e2.x)
          = .ok (some { cx with band := some { size := w.fdiv 10 } }))
    ∧ (cy.type = some .N ∨ cy.type = some .O →
        (v.set_single_dims w h).map (fun v2 => v2.encoding.bind fun e2 => e2.y)
          = .ok (some { cy with band := some { size := h.fdiv 10 } })) := by
  have h34w : pyIntMul075 w = (w * 3).fdiv 4 :=
    tdiv_eq_fdiv_of_nonneg _ _ (by omega) (by norm_num)
  have h34h : pyIntMul075 h = (h * 3).fdiv 4 :=
    tdiv_eq_fdiv_of_nonneg _ _ (by omega) (by norm_num)
  have h10w : pyIntDiv10 w = w.fdiv 10 :=
    tdiv_eq_fdiv_of_nonneg _ _ hw (by norm_num)
  have h10h : pyIntDiv10 h = h.fdiv 10 :=
    tdiv_eq_fdiv_of_nonneg _ _ hh (by norm_num)
  refine ⟨?_, fun hcx => ?_, fun hcy => ?_⟩
  · by_cases hcx : cx.type = some VLType.N ∨ cx.type = some VLType.O <;>
      by_cases hcy : cy.type = some VLType.N ∨ cy.type = some VLType.O <;>
      simp [Viz.set_single_dims, hv, hx, hy, hcx, hcy, Except.map, h34w, h34h]
  · by_cases hcy : cy.type = some VLType.N ∨ cy.type = some VLType.O <;>
      simp [Viz.set_single_dims, hv, hx, hy, hcx, hcy, Except.map, h10w]
  · by_cases hcx : cx.type = some VLType.N ∨ cx.type = some VLType.O <;>
      simp [Viz.set_single_dims, hv, hx, hy, hcx, hcy, Except.map, h10h]

/-- The chart used to witness claim C6: `x` resolved nominal, `y`
resolved quantitative. -/
def vizC6 : Viz :=
  { encoding := some { x := some { kind := .X, type := some .N },
                       y := some { kind := .Y, type := some .Q } } }

/-- Claim C6, witness: `set_single_dims(400, 200)` yields
`singleWidth=300`, `singleHeight=150`, and a band of size 40 on the
nominal x channel. -/
theorem claim_C6_witness :
    (vizC6.set_single_dims 400 200).map (fun v2 =>
        (v2.vlconfig.width, v2.vlconfig.height,
         v2.vlconfig.singleWidth, v2.vlconfig.singleHeight))
      = .ok (400, 200, some 300, some 150)
    ∧ (vizC6.set_single_dims 400 200).map (fun v2 => v2.encoding.bind fun e2 => e2.x)
      = .ok (some { kind := ChannelKind.X, type := some VLType.N,
                    band := some { size := 40 } }) := by
  have h := claim_C6 vizC6
    { x := some { kind := .X, type := some .N },
      y := some { kind := .Y, type := some .Q } }
    { kind := .X, type := some .N } { kind := .Y, type := some .Q } 400 200
    rfl rfl rfl (by norm_num) (by norm_num)
  constructor
  · rw [h.1]
    rw [show ((400 : Int) * 3).fdiv 4 = 300 from by decide,
      show ((200 : Int) * 3).fdiv 4 = 150 from by decide]
  · have h2 := h.2.1 (Or.inl rfl)
    rw [h2, show ((400 : Int).fdiv 10) = 40 from by decide]
end Altair
